import Mathlib

/-!
Verification of the CSL converter of commonmeta-go.

The source of truth is the package `csl` (file `csl/csl.go` in the repository,
provided under `src/cmd/convert.go`): the type mapping table `CMToCSLMappings`,
the functions `Read`, `Convert`, `Write` and `WriteList`, and the record types
`CSL`, `Author` and `content`.  Helper packages of the repository that are not
part of the provided sources (`commonmeta.Data`, `dateutils.GetDateParts`,
`doiutils.ValidateDOI`, `schemautils.JSONSchemaErrors`) are modelled from the
specification; each such definition carries a doc comment saying so.

Go conventions are embedded as follows: a Go string is a Lean `String`; a Go
slice is a Lean `List` (the nil slice is `[]`); a nil-able `map[string][][]int`
date-parts field is an `Option (List (List Nat))` (`none` is the unset map);
`[]byte` output that may be nil is `Option String`; a Go `error` result is
`Option String` (`none` is the nil error).  Go map indexing `m[k]` on a missing
key yields the zero value `""`, embedded by `(List.lookup k m).getD ""`.
-/

namespace CM

/-- Modelled from the spec (§3, Canonical Data Model): the `commonmeta` package
defining `Data` is not under the provided sources.  A title entry holds one
title string. -/
structure Title where
  Title : String := ""
deriving DecidableEq, Repr

/-- Modelled from the spec (§3): a description entry holds one description
string; only the first is used as an abstract. -/
structure Description where
  Description : String := ""
deriving DecidableEq, Repr

/-- Modelled from the spec (§3): a subject/keyword entry. -/
structure Subject where
  Subject : String := ""
deriving DecidableEq, Repr

/-- Modelled from the spec (§3): a contributor carries a name (either
`GivenName`+`FamilyName` for a person, or a single `Name` for an organization)
and a set of `ContributorRoles`. -/
structure Contributor where
  Name : String := ""
  GivenName : String := ""
  FamilyName : String := ""
  ContributorRoles : List String := []
deriving DecidableEq, Repr

/-- Modelled from the spec (§3, §4.1): the nested `Container` entity holding
`Title`, `Issue`, `Volume` and the start/end page fields from which the
derived accessor `Pages()` renders a page range. -/
structure Container where
  Title : String := ""
  Issue : String := ""
  Volume : String := ""
  FirstPage : String := ""
  LastPage : String := ""
deriving DecidableEq, Repr

/-- Modelled from the spec (§4.1): `Container.Pages()` renders a human-readable
page range from the start/end page fields, the empty string if neither is
present. -/
def Container.Pages (c : Container) : String :=
  if c.FirstPage = "" ∧ c.LastPage = "" then ""
  else if c.LastPage = "" then c.FirstPage
  else if c.FirstPage = "" then c.LastPage
  else c.FirstPage ++ "-" ++ c.LastPage

/-- Modelled from the spec (§3): the nested `Date` entity with independently
optional `Published`, `Submitted`, `Accessed` date strings. -/
structure Date where
  Published : String := ""
  Submitted : String := ""
  Accessed : String := ""
deriving DecidableEq, Repr

/-- Modelled from the spec (§3): the nested `Publisher` entity with a `Name`. -/
structure Publisher where
  Name : String := ""
deriving DecidableEq, Repr

/-- Modelled from the spec (§3): the canonical Commonmeta record
(`commonmeta.Data`), the hub type of the conversion engine.  Field defaults
are the Go zero values. -/
structure Data where
  ID : String := ""
  «Type» : String := ""
  Titles : List Title := []
  Descriptions : List Description := []
  Subjects : List Subject := []
  Contributors : List Contributor := []
  Container : Container := {}
  Date : Date := {}
  Publisher : Publisher := {}
  Language : String := ""
  URL : String := ""
  Version : String := ""
deriving DecidableEq, Repr

/-- The CSL JSON record type (`type CSL struct` of the source), fields in Go
declaration order.  `map[string][][]int` date fields are `Option` of the
nested date-parts (the enclosing single-key map is restored by
`marshalCSL`); the nil map is `none`. -/
structure Author where
  Given : String := ""
  Family : String := ""
  Literal : String := ""
deriving DecidableEq, Repr

/-- The CSL record (`type CSL struct` of the source), in Go field order. -/
structure CSL where
  ID : String := ""
  «Type» : String := ""
  Abstract : String := ""
  Accessed : Option (List (List Nat)) := none
  Author : List Author := []
  ContainerTitle : String := ""
  DOI : String := ""
  ISSN : String := ""
  Issue : String := ""
  Issued : Option (List (List Nat)) := none
  Keyword : String := ""
  Language : String := ""
  License : String := ""
  Page : String := ""
  Publisher : String := ""
  Submitted : Option (List (List Nat)) := none
  Title : String := ""
  URL : String := ""
  Version : String := ""
  Volume : String := ""
deriving DecidableEq, Repr

/-- The parsed shape of CSL JSON input (`type content struct` of the source):
only `id` and `title` are read. -/
structure content where
  ID : String := ""
  Title : String := ""
deriving DecidableEq, Repr

/-- The static type mapping table `CMToCSLMappings` of the source, from
canonical Commonmeta type names to CSL type terms. -/
def CMToCSLMappings : List (String × String) :=
  [("Article", "article"),
   ("JournalArticle", "article-journal"),
   ("Book", "book"),
   ("BookChapter", "chapter"),
   ("Collection", "collection"),
   ("Dataset", "dataset"),
   ("Document", "document"),
   ("Entry", "entry"),
   ("Event", "event"),
   ("Figure", "figure"),
   ("Image", "graphic"),
   ("LegalDocument", "legal_case"),
   ("Manuscript", "manuscript"),
   ("Map", "map"),
   ("Audiovisual", "motion_picture"),
   ("Patent", "patent"),
   ("Performance", "performance"),
   ("Journal", "periodical"),
   ("PersonalCommunication", "personal_communication"),
   ("Report", "report"),
   ("Review", "review"),
   ("Software", "software"),
   ("Presentation", "speech"),
   ("Standard", "standard"),
   ("Dissertation", "thesis"),
   ("WebPage", "webpage")]

/-- The remainder of `l` after the expected prefix `p`, `none` when `p` is
not a prefix of `l`. -/
def dropPrefixChars : List Char → List Char → Option (List Char)
  | [], l => some l
  | _ :: _, [] => none
  | p :: ps, c :: cs => if c = p then dropPrefixChars ps cs else none

/-- Modelled from the spec (§2, §4.3, §7): part of `doiutils.ValidateDOI`,
which is not under the provided sources.  Strips a `doi.org` resolver URL or a
`doi:` scheme from a DOI-bearing identifier. -/
def stripDOIResolver (identifier : String) : String :=
  match dropPrefixChars "https://doi.org/".data identifier.data with
  | some rest => String.mk rest
  | none =>
    match dropPrefixChars "http://doi.org/".data identifier.data with
    | some rest => String.mk rest
    | none =>
      match dropPrefixChars "doi:".data identifier.data with
      | some rest => String.mk rest
      | none => identifier

/-- Modelled from the spec (§2, §4.3, §7): part of `doiutils.ValidateDOI`.
Extracts the canonical `10.prefix/suffix` form of a DOI-bearing identifier —
after stripping a resolver wrapper it must carry a `10.` prefix and a
prefix/suffix slash — `none` when the identifier carries no DOI. -/
def extractDOI (identifier : String) : Option String :=
  let s := stripDOIResolver identifier
  if (dropPrefixChars "10.".data s.data).isSome ∧ '/' ∈ s.data then some s else none

/-- Modelled from the spec (§2, §4.3, §7): `doiutils.ValidateDOI` is not under
the provided sources.  It normalizes a DOI-bearing identifier string to its
canonical `10.prefix/suffix` form, returning the canonical form and `true` on
success, and the empty string and `false` on failure. -/
def ValidateDOI (identifier : String) : String × Bool :=
  match extractDOI identifier with
  | some doi => (doi, true)
  | none => ("", false)

/-- The groups of characters of `l` between occurrences of `-`. -/
def splitOnDash : List Char → List (List Char)
  | [] => [[]]
  | c :: rest =>
    match splitOnDash rest with
    | [] => [[]]
    | g :: gs => if c = '-' then [] :: g :: gs else (c :: g) :: gs

/-- The numeric value of a non-empty all-digit character group, `none`
otherwise. -/
def parseNatDigits (l : List Char) : Option Nat :=
  if l ≠ [] ∧ l.all Char.isDigit then
    some (l.foldl (fun n c => n * 10 + (c.toNat - 48)) 0)
  else none

/-- Modelled from the spec (§4.4): `dateutils.GetDateParts` is not under the
provided sources.  It parses an ISO-8601-ish date string into nested
date-parts, trailing components omitted when the source string lacks that
precision (`YYYY`, `YYYY-MM`, `YYYY-MM-DD`); a non-conforming string yields an
empty result rather than an error. -/
def GetDateParts (dateString : String) : List (List Nat) :=
  match (splitOnDash dateString.data).mapM parseNatDigits with
  | some [y] => [[y]]
  | some [y, m] => [[y, m]]
  | some [y, m, d] => [[y, m, d]]
  | _ => []

/-- `Read` of the source: reads parsed CSL JSON `content` and converts it to a
commonmeta record, copying only the id; the error is always nil. -/
def Read (c : content) : Data × Option String :=
  ({ ID := c.ID }, none)

/-- The author built for one included contributor, as in the loop body of
`Convert`: a structured person name when `FamilyName` is non-empty, otherwise
a literal name. -/
def mkAuthor (c : Contributor) : Author :=
  if c.FamilyName ≠ "" then { Given := c.GivenName, Family := c.FamilyName }
  else { Literal := c.Name }

/-- The contributor loop of `Convert`: iterate in order, append an author for
every contributor whose roles contain "Author". -/
def convertAuthors : List Contributor → List Author
  | [] => []
  | c :: rest =>
    if c.ContributorRoles.contains "Author" then mkAuthor c :: convertAuthors rest
    else convertAuthors rest

/-- `Convert` of the source: converts commonmeta metadata to a CSL record.
Field by field as in the Go code; the returned error is always nil. -/
def Convert (data : Data) : CSL × Option String :=
  let mapped := (CMToCSLMappings.lookup data.«Type»).getD ""
  let csl : CSL :=
    { ID := data.ID
      «Type» :=
        if data.«Type» = "Software" ∧ data.Version ≠ "" then "book"
        else if mapped = "" then "Document"
        else mapped
      ContainerTitle := data.Container.Title
      DOI := (ValidateDOI data.ID).1
      Issue := data.Container.Issue
      Keyword := data.Subjects.foldl
        (fun acc s => if s.Subject ≠ "" then acc ++ s.Subject else acc) ""
      Language := data.Language
      Page := data.Container.Pages
      Title := match data.Titles with | [] => "" | t :: _ => t.Title
      URL := data.URL
      Volume := data.Container.Volume
      Author := convertAuthors data.Contributors
      Issued :=
        if data.Date.Published ≠ "" then some (GetDateParts data.Date.Published) else none
      Submitted :=
        if data.Date.Submitted ≠ "" then some (GetDateParts data.Date.Submitted) else none
      Accessed :=
        if data.Date.Accessed ≠ "" then some (GetDateParts data.Date.Accessed) else none
      Abstract := match data.Descriptions with | [] => "" | d :: _ => d.Description
      Publisher := data.Publisher.Name
      Version := data.Version }
  (csl, none)

/-- One hex digit, lowercase, as used by Go `encoding/json` in escapes. -/
def hexDigitChar (n : Nat) : Char :=
  if n < 10 then Char.ofNat (48 + n) else Char.ofNat (87 + n)

/-- Escaping of one character as performed by Go `encoding/json` with its
default HTML escaping: quote, backslash, the HTML-sensitive characters and
control characters are escaped, everything else passes through. -/
def escapeChar (c : Char) : String :=
  if c = '"' then "\\\""
  else if c = '\\' then "\\\\"
  else if c = '\n' then "\\n"
  else if c = '\r' then "\\r"
  else if c = '\t' then "\\t"
  else if c = '<' then "\\u003c"
  else if c = '>' then "\\u003e"
  else if c = '&' then "\\u0026"
  else if c.toNat < 32 then
    "\\u00" ++ String.singleton (hexDigitChar (c.toNat / 16))
      ++ String.singleton (hexDigitChar (c.toNat % 16))
  else String.singleton c

/-- A JSON string literal for `s`, as produced by Go `encoding/json`. -/
def jsonQuote (s : String) : String :=
  "\"" ++ String.join (s.data.map escapeChar) ++ "\""

/-- JSON for one inner date-parts sequence of integers. -/
def marshalNatList (l : List Nat) : String :=
  "[" ++ String.intercalate "," (l.map toString) ++ "]"

/-- JSON for a `map[string][][]int` date field as built by the date
normalizer: a single `date-parts` key holding the nested parts. -/
def marshalDateParts (dp : List (List Nat)) : String :=
  "\x7b\"date-parts\":[" ++ String.intercalate "," (dp.map marshalNatList) ++ "]\x7d"

/-- JSON for one `Author`, fields in Go declaration order, empty strings
omitted (`omitempty`). -/
def marshalAuthor (a : Author) : String :=
  let fields :=
    (if a.Given ≠ "" then ["\"given\":" ++ jsonQuote a.Given] else [])
    ++ (if a.Family ≠ "" then ["\"family\":" ++ jsonQuote a.Family] else [])
    ++ (if a.Literal ≠ "" then ["\"literal\":" ++ jsonQuote a.Literal] else [])
  "\x7b" ++ String.intercalate "," fields ++ "\x7d"

/-- An optional string field of the CSL record under `omitempty`: omitted when
empty, a `name:value` member otherwise. -/
def strField (field : String) (v : String) : List String :=
  if v = "" then [] else [jsonQuote field ++ ":" ++ jsonQuote v]

/-- An optional date field of the CSL record: the nil map is omitted
(`omitempty`), otherwise a `name:value` member. -/
def dateField (field : String) (v : Option (List (List Nat))) : List String :=
  match v with
  | none => []
  | some dp => [jsonQuote field ++ ":" ++ marshalDateParts dp]

/-- `json.Marshal` of a `CSL` record: members in Go struct-field order, `id`
and `type` always present, every other field under `omitempty`. -/
def marshalCSL (csl : CSL) : String :=
  let fields :=
    ["\"id\":" ++ jsonQuote csl.ID, "\"type\":" ++ jsonQuote csl.«Type»]
    ++ strField "abstract" csl.Abstract
    ++ dateField "accessed" csl.Accessed
    ++ (if csl.Author = [] then []
        else ["\"author\":[" ++ String.intercalate "," (csl.Author.map marshalAuthor) ++ "]"])
    ++ strField "container-title" csl.ContainerTitle
    ++ strField "DOI" csl.DOI
    ++ strField "ISSN" csl.ISSN
    ++ strField "issue" csl.Issue
    ++ dateField "issued" csl.Issued
    ++ strField "keyword" csl.Keyword
    ++ strField "language" csl.Language
    ++ strField "license" csl.License
    ++ strField "page" csl.Page
    ++ strField "publisher" csl.Publisher
    ++ dateField "submitted" csl.Submitted
    ++ strField "title" csl.Title
    ++ strField "URL" csl.URL
    ++ strField "version" csl.Version
    ++ strField "volume" csl.Volume
  "\x7b" ++ String.intercalate "," fields ++ "\x7d"

/-- Modelled from the spec (§4.5, §6): `schemautils.JSONSchemaErrors` is not
under the provided sources; the schema is an opaque validation oracle
returning an ordered list of structured violations (field path + constraint
description), empty exactly when the document is valid
(`gojsonschema`'s `Valid()` is emptiness of `Errors()`). -/
structure ResultError where
  Field : String := ""
  Description : String := ""
deriving DecidableEq, Repr

/-- `Write` of the source, parameterized by the validation oracle `validate`
(the modelled `schemautils.JSONSchemaErrors(output, "csl-data")`): convert,
serialize, validate; on failure return nil bytes with the violations, on
success the bytes with a nil error list. -/
def Write (validate : String → List ResultError) (data : Data) :
    Option String × List ResultError :=
  let csl := (Convert data).1
  let output := marshalCSL csl
  let errs := validate output
  if errs.isEmpty then (some output, []) else (none, errs)

/-- The read-back of serialized CSL output, as performed by parsing `Write`
output into `content` and applying `Read`: JSON unmarshalling recovers the
serialized `id` (and `title`), and `Read` keeps only the id. -/
def rereadData (csl : CSL) : Data :=
  (Read { ID := csl.ID, Title := csl.Title }).1

/-- Concatenation of a list of strings with no separator. -/
def concatStrings : List String → String
  | [] => ""
  | s :: rest => s ++ concatStrings rest

theorem convertAuthors_eq_filter_map (l : List Contributor) :
    convertAuthors l
      = (l.filter (fun c => c.ContributorRoles.contains "Author")).map mkAuthor := by
  induction l with
  | nil => rfl
  | cons c rest ih =>
    by_cases h : "Author" ∈ c.ContributorRoles
    · simp [convertAuthors, h, ih]
    · simp [convertAuthors, h, ih]

theorem keyword_foldl_eq (l : List Subject) (acc : String) :
    l.foldl (fun acc s => if s.Subject ≠ "" then acc ++ s.Subject else acc) acc
      = acc ++ concatStrings ((l.map Subject.Subject).filter (fun s => s ≠ "")) := by
  induction l generalizing acc with
  | nil => simp [concatStrings]
  | cons s rest ih =>
    simp only [List.foldl_cons, List.map_cons, List.filter_cons]
    by_cases h : s.Subject = ""
    · simpa [h] using ih acc
    · simpa [h, concatStrings, String.append_assoc] using ih (acc ++ s.Subject)

theorem lookup_snd_mem (l : List (String × String)) (t v : String)
    (h : List.lookup t l = some v) : v ∈ l.map Prod.snd := by
  induction l with
  | nil => simp [List.lookup] at h
  | cons p rest ih =>
    obtain ⟨k, b⟩ := p
    rw [List.lookup] at h
    cases hbeq : (t == k) with
    | true => rw [hbeq] at h; simp at h; simp [h]
    | false => rw [hbeq] at h; simp at h; simp [ih h]

theorem lookup_val_ne_empty (t v : String)
    (h : List.lookup t CMToCSLMappings = some v) : v ≠ "" := by
  have hall : ∀ x ∈ CMToCSLMappings.map Prod.snd, x ≠ "" := by decide
  exact hall v (lookup_snd_mem CMToCSLMappings t v h)

theorem validateDOI_fail (s : String) (h : (ValidateDOI s).2 = false) :
    (ValidateDOI s).1 = "" := by
  unfold ValidateDOI at h ⊢
  cases hE : extractDOI s with
  | none => rfl
  | some doi => rw [hE] at h; simp at h

/-- Claim C1: for every canonical record, `Write` returns either non-nil
serialized bytes together with an empty error list, or nil bytes together
with a non-empty list of schema validation errors — never both populated and
never both empty.  Quantified over every behavior of the (spec-modelled)
schema validation oracle. -/
theorem c1_write_exclusivity (validate : String → List ResultError) (d : Data) :
    ((Write validate d).1 ≠ none ∧ (Write validate d).2 = [])
      ∨ ((Write validate d).1 = none ∧ (Write validate d).2 ≠ []) := by
  cases hE : validate (marshalCSL (Convert d).1) with
  | nil => left; simp [Write, hE]
  | cons e rest => right; simp [Write, hE]

/-- Claim C2: for every canonical record with `Type = "Software"` and a
non-empty `Version`, `Convert` sets the CSL type to `"book"`, regardless of
what the mapping table maps `"Software"` to. -/
theorem c2_software_override (d : Data)
    (h1 : d.«Type» = "Software") (h2 : d.Version ≠ "") :
    (Convert d).1.«Type» = "book" := by
  simp [Convert, h1, h2]

theorem c2_software_override_witness :
    (Convert { «Type» := "Software", Version := "1.1" }).1.«Type» = "book" :=
  c2_software_override { «Type» := "Software", Version := "1.1" } rfl (by decide)

/-- Claim C3: the authors emitted by `Convert` are exactly the contributors
whose `ContributorRoles` contains `"Author"`, in source order, each mapped to
either a structured `(Given, Family)` name with an empty literal (when
`FamilyName` is non-empty) or a purely literal name (otherwise) — exactly one
of the two shapes, never both. -/
theorem c3_author_filtering (d : Data) :
    (Convert d).1.Author
        = (d.Contributors.filter
            (fun c => c.ContributorRoles.contains "Author")).map mkAuthor
      ∧ ∀ c ∈ d.Contributors,
          (c.FamilyName ≠ "" →
            mkAuthor c = { Given := c.GivenName, Family := c.FamilyName, Literal := "" })
          ∧ (c.FamilyName = "" →
            mkAuthor c = { Given := "", Family := "", Literal := c.Name }) := by
  constructor
  · simp [Convert, convertAuthors_eq_filter_map]
  · intro c _
    constructor
    · intro h; simp [mkAuthor, h]
    · intro h; simp [mkAuthor, h]

/-- Claim C4: for every canonical record that does not trigger the
Software-with-Version override, an unmapped `Type` yields the literal default
CSL type `"Document"`, and a mapped `Type` yields exactly its table entry. -/
theorem c4_default_type_fallback (d : Data)
    (h : ¬(d.«Type» = "Software" ∧ d.Version ≠ "")) :
    (List.lookup d.«Type» CMToCSLMappings = none →
      (Convert d).1.«Type» = "Document")
    ∧ ∀ v, List.lookup d.«Type» CMToCSLMappings = some v →
      (Convert d).1.«Type» = v := by
  constructor
  · intro hn; simp [Convert, h, hn]
  · intro v hv
    have hne : v ≠ "" := lookup_val_ne_empty d.«Type» v hv
    simp [Convert, h, hv, hne]

theorem c4_default_type_fallback_witness :
    (Convert { «Type» := "BlogPost" }).1.«Type» = "Document"
      ∧ (Convert { «Type» := "Dataset" }).1.«Type» = "dataset" :=
  ⟨(c4_default_type_fallback { «Type» := "BlogPost" } (by decide)).1 (by decide),
   (c4_default_type_fallback { «Type» := "Dataset" } (by decide)).2 "dataset" (by decide)⟩

/-- Claim C5: the three date strings are handled independently: a non-empty
`Published`/`Submitted`/`Accessed` is passed through the date normalizer into
`issued`/`submitted`/`accessed` respectively; an empty one leaves the
corresponding CSL field unset (`none`, the omitted nil map). -/
theorem c5_dates_independent (d : Data) :
    ((d.Date.Published ≠ "" →
        (Convert d).1.Issued = some (GetDateParts d.Date.Published))
      ∧ (d.Date.Published = "" → (Convert d).1.Issued = none))
    ∧ ((d.Date.Submitted ≠ "" →
        (Convert d).1.Submitted = some (GetDateParts d.Date.Submitted))
      ∧ (d.Date.Submitted = "" → (Convert d).1.Submitted = none))
    ∧ ((d.Date.Accessed ≠ "" →
        (Convert d).1.Accessed = some (GetDateParts d.Date.Accessed))
      ∧ (d.Date.Accessed = "" → (Convert d).1.Accessed = none)) := by
  refine ⟨⟨?_, ?_⟩, ⟨?_, ?_⟩, ⟨?_, ?_⟩⟩ <;> intro h <;> simp [Convert, h]

/-- Claim C6: the CSL keyword field is the concatenation, in source order and
with no separator, of exactly the non-empty subject strings. -/
theorem c6_keyword_concat (d : Data) :
    (Convert d).1.Keyword
      = concatStrings ((d.Subjects.map Subject.Subject).filter (fun s => s ≠ "")) := by
  have h := keyword_foldl_eq d.Subjects ""
  simpa [Convert] using h

/-- Claim C7: `Convert` is total and never returns an error; a record with
empty `Titles` and empty `Descriptions` converts without error, with empty
title and abstract fields. -/
theorem c7_convert_total (d : Data) :
    (Convert d).2 = none
      ∧ (d.Titles = [] → (Convert d).1.Title = "")
      ∧ (d.Descriptions = [] → (Convert d).1.Abstract = "") := by
  refine ⟨rfl, ?_, ?_⟩ <;> intro h <;> simp [Convert, h]

set_option maxRecDepth 8000

/-- Claim C8, counterexample: the write–read round trip is not idempotent.
For the record with id `10.5555/1` and type `Article`, the first conversion
serializes with CSL type `article`, but the reread record (the read path
keeps only the id) reconverts with the default type `Document`, so the bytes
differ. -/
theorem c8_roundtrip_not_idempotent :
    marshalCSL (Convert (rereadData
        (Convert { ID := "10.5555/1", «Type» := "Article" }).1)).1
      ≠ marshalCSL (Convert { ID := "10.5555/1", «Type» := "Article" }).1 := by
  decide

/-- Claim C8, amended: the round trip stabilizes after one application —
rereading and reconverting a second time yields bytes identical to the first
reread-and-reconvert's bytes, because the read path preserves exactly the id
and conversion preserves the id. -/
theorem c8_roundtrip_stabilizes (d : Data) :
    marshalCSL (Convert (rereadData (Convert (rereadData (Convert d).1)).1)).1
      = marshalCSL (Convert (rereadData (Convert d).1)).1 := by
  have h : rereadData (Convert (rereadData (Convert d).1)).1
      = rereadData (Convert d).1 := rfl
  rw [h]

/-- Claim C9: `Convert` copies `ID` verbatim into the CSL id, normalizes `ID`
through the DOI validator into the CSL DOI field, yields an empty DOI field
when normalization fails, and still completes (nil error) in every case. -/
theorem c9_id_and_doi (d : Data) :
    (Convert d).1.ID = d.ID
      ∧ (Convert d).1.DOI = (ValidateDOI d.ID).1
      ∧ ((ValidateDOI d.ID).2 = false → (Convert d).1.DOI = "")
      ∧ (Convert d).2 = none := by
  refine ⟨rfl, rfl, ?_, rfl⟩
  intro h
  exact validateDOI_fail d.ID h

/-- Claim C10: the CSL read path copies only the id into the canonical
record; every other field is the zero value, and `Read` never returns an
error. -/
theorem c10_read_copies_only_id (c : content) :
    (Read c).1.ID = c.ID ∧ (Read c).2 = none
      ∧ (Read c).1.«Type» = "" ∧ (Read c).1.Titles = []
      ∧ (Read c).1.Descriptions = [] ∧ (Read c).1.Subjects = []
      ∧ (Read c).1.Contributors = [] ∧ (Read c).1.Container = {}
      ∧ (Read c).1.Date = {} ∧ (Read c).1.Publisher = {}
      ∧ (Read c).1.Language = "" ∧ (Read c).1.URL = ""
      ∧ (Read c).1.Version = "" :=
  ⟨rfl, rfl, rfl, rfl, rfl, rfl, rfl, rfl, rfl, rfl, rfl, rfl, rfl⟩

end CM
